import Mathlib

/-!
Verification of the `name` package (a DNS resolver with cache and background
refresh): shallow embedding of `src/name.go`. Conventions:

* `time.Time` and `time.Duration` are modelled as `Int` (nanoseconds, as in Go);
  `t.Before u` is `t < u`, `t.After u` is `t > u`. Go integer division on
  `time.Duration` truncates toward zero, which is `Int.tdiv`.
* The `sync.Map` cache is modelled as an association list with replace-on-store;
  `sync.Map.Load / Store / Delete / Range` become `load / store / delete' / length`.
* External collaborators (the spec's §1 exclusions) are an explicit environment
  `Env`: `net.ParseIP`, `net.SplitHostPort` and the backend lookup
  `netResolver.LookupIP` (whose outcome for the one call under study is a fixed
  `Except`). `net.IP.To4 / To16` are modelled concretely from the Go standard
  library since family filtering depends on them.
* `go r.resolveDNS(host)` (fire-and-forget) is modelled by recording the host in a
  list of launched background tasks; the task's effect is not applied in the step.
* The `uint32` round-robin counter is a `Nat` reduced modulo `2^32` where Go wraps.
-/

set_option autoImplicit false

namespace Name

/-- Go `net.IP`: a byte slice of length 4 (IPv4) or 16 (IPv6 / IPv4-in-IPv6). -/
abbrev IP := List Nat

/-- The IPv4-in-IPv6 prefix `::ffff:0:0/96` (Go `v4InV6Prefix`). -/
def v4InV6Prefix : List Nat := [0, 0, 0, 0, 0, 0, 0, 0, 0, 0, 255, 255]

/-- Go `net.IP.To4`: the 4-byte form when the address is IPv4 or IPv4-in-IPv6,
`none` (Go `nil`) otherwise. -/
def to4 (ip : IP) : Option IP :=
  if ip.length = 4 then some ip
  else if ip.length = 16 ∧ ip.take 12 = v4InV6Prefix then some (ip.drop 12)
  else none

/-- Go `net.IP.To16`: the 16-byte form when the address has one, `none` otherwise. -/
def to16 (ip : IP) : Option IP :=
  if ip.length = 4 then some (v4InV6Prefix ++ ip)
  else if ip.length = 16 then some ip
  else none

/-- Go `ip.To4() != nil`: the address has a valid 4-byte representation. -/
def hasTo4 (ip : IP) : Bool := (to4 ip).isSome

/-- Go `ip.To4() == nil && ip.To16() != nil`: a genuine IPv6 address. -/
def isV6Only (ip : IP) : Bool := (to4 ip).isNone && (to16 ip).isSome

/-- Constant `refreshThreshold = 80` from `name.go`. -/
def refreshThreshold : Int := 80

/-- Constant `defaultTTL = 5 * time.Minute` from `name.go`, in nanoseconds. -/
def defaultTTL : Int := 5 * 60 * 1000000000

/-- Structure `cacheEntry` from `name.go`: resolved IPs with expiry and stale timestamps. -/
structure cacheEntry where
  ips : List IP
  expires : Int
  stale : Int
  deriving Repr, DecidableEq

/-- The `sync.Map` cache, modelled as an association list of unique keys. -/
abbrev Cache := List (String × cacheEntry)

/-- Go `sync.Map.Load`. -/
def load (c : Cache) (host : String) : Option cacheEntry :=
  (c.find? (fun p => p.1 == host)).map (fun p => p.2)

/-- Go `sync.Map.Delete` (no-op when the key is absent). -/
def delete' (c : Cache) (host : String) : Cache :=
  c.filter (fun p => ! (p.1 == host))

/-- Go `sync.Map.Store`: atomic replace-or-insert. -/
def store (c : Cache) (host : String) (e : cacheEntry) : Cache :=
  (host, e) :: delete' c host

/-- Structure `Resolver` from `name.go` (the `netResolver` field is the external backend,
found in `Env` instead; `serverIndex` is the `uint32` round-robin counter). -/
structure Resolver where
  cache : Cache
  ttl : Int
  dnsServers : List String
  serverIndex : Nat
  deriving Repr, DecidableEq

/-- Errors produced by the resolver, one constructor per `fmt.Errorf` site in
`name.go`; wrapped underlying errors (`%w`) are carried in the constructor. -/
inductive ResolveError where
  | invalidAddress (address : String)
  | invalidPort (port : String)
  | lookupFailed (host : String) (err : String)
  | noRecords (host : String)
  | noIPv4 (host : String)
  | noIPv6 (host : String)
  | indexPanic
  deriving Repr, DecidableEq

instance {ε α : Type} [DecidableEq ε] [DecidableEq α] : DecidableEq (Except ε α) := fun x y =>
  match x, y with
  | .ok a, .ok b => if h : a = b then .isTrue (by rw [h]) else .isFalse (by simp [h])
  | .error a, .error b => if h : a = b then .isTrue (by rw [h]) else .isFalse (by simp [h])
  | .ok _, .error _ => .isFalse (by simp)
  | .error _, .ok _ => .isFalse (by simp)

/-- The external collaborators of §1 of the spec: `net.ParseIP`,
`net.SplitHostPort`, and the outcome of the backend `LookupIP` call. -/
structure Env where
  parseIP : String → Option IP
  splitHostPort : String → Except Unit (String × String)
  lookupIP : String → Except String (List IP)

/-- Function `NewResolver` from `name.go`: substitutes the 5-minute default for a
non-positive TTL; the custom-server dial closure is modelled by `resolverDial`. -/
def NewResolver (ttl : Int) (dnsServers : List String) : Resolver :=
  { cache := []
    ttl := if ttl ≤ 0 then defaultTTL else ttl
    dnsServers := dnsServers
    serverIndex := 0 }

/-- Function `resolveDNS` from `name.go`: performs the backend lookup and caches the
result; on failure or an empty result set, returns an error and leaves the
cache untouched. `now` is the `time.Now()` taken after the lookup. -/
def resolveDNS (env : Env) (r : Resolver) (now : Int) (host : String) :
    Except ResolveError (List IP) × Resolver :=
  match env.lookupIP host with
  | .error err => (.error (.lookupFailed host err), r)
  | .ok ips =>
    if ips.length = 0 then
      (.error (.noRecords host), r)
    else
      let e : cacheEntry :=
        { ips := ips
          expires := now + r.ttl
          stale := now + Int.tdiv (r.ttl * refreshThreshold) 100 }
      (.ok ips, { r with cache := store r.cache host e })

/-- Function `lookupHost` from `name.go`. The third component lists the hosts for which a
background refresh goroutine (`go r.resolveDNS(host)`) was launched in this
step; its effect is fire-and-forget and not applied here. -/
def lookupHost (env : Env) (r : Resolver) (now : Int) (host : String) :
    Except ResolveError (List IP) × Resolver × List String :=
  match env.parseIP host with
  | some ip => (.ok [ip], r, [])
  | none =>
    match load r.cache host with
    | some ce =>
      if now < ce.expires then
        if now > ce.stale then (.ok ce.ips, r, [host])
        else (.ok ce.ips, r, [])
      else
        let r' := { r with cache := delete' r.cache host }
        let (res, r'') := resolveDNS env r' now host
        (res, r'', [])
    | none =>
      let (res, r') := resolveDNS env r now host
      (res, r', [])

/-- Go `strconv.Atoi`: optional sign, then decimal digits, within the 64-bit
`int` range; anything else is an error. -/
def atoi (s : String) : Except Unit Int :=
  let (neg, digits) :=
    match s.data with
    | '+' :: rest => (false, rest)
    | '-' :: rest => (true, rest)
    | l => (false, l)
  if digits = [] then .error ()
  else if digits.all (fun c => '0' ≤ c ∧ c ≤ '9') then
    let n : Nat := digits.foldl (fun acc c => acc * 10 + (c.toNat - 48)) 0
    let v : Int := if neg then -(n : Int) else (n : Int)
    if -(2 ^ 63) ≤ v ∧ v ≤ 2 ^ 63 - 1 then .ok v else .error ()
  else .error ()

/-- The `switch network` statement of `resolveAddr` in `name.go`: address-family
selection over the resolved list. The `default` arm is Go `ips[0]`, which
panics on an empty slice (`indexPanic`; unreachable from the callers, which
guarantee a non-empty list). -/
def selectIP (network host : String) (ips : List IP) : Except ResolveError IP :=
  if network = "tcp4" ∨ network = "udp4" then
    match ips.find? hasTo4 with
    | some ip => .ok ip
    | none => .error (.noIPv4 host)
  else if network = "tcp6" ∨ network = "udp6" then
    match ips.find? isV6Only with
    | some ip => .ok ip
    | none => .error (.noIPv6 host)
  else
    match ips with
    | ip :: _ => .ok ip
    | [] => .error .indexPanic

/-- Function `resolveAddr` from `name.go`: split host:port, parse the port, resolve the
host, then select an address of the requested family. -/
def resolveAddr (env : Env) (r : Resolver) (now : Int) (network address : String) :
    Except ResolveError (IP × Int) × Resolver × List String :=
  match env.splitHostPort address with
  | .error _ => (.error (.invalidAddress address), r, [])
  | .ok (host, port) =>
    match atoi port with
    | .error _ => (.error (.invalidPort port), r, [])
    | .ok portNum =>
      match lookupHost env r now host with
      | (.error e, r', tasks) => (.error e, r', tasks)
      | (.ok ips, r', tasks) =>
        match selectIP network host ips with
        | .error e => (.error e, r', tasks)
        | .ok ip => (.ok (ip, portNum), r', tasks)

/-- Function `GetCachedIPs` from `name.go`: read-only probe that lazily deletes an
expired entry; it never performs or launches a resolution, so the task list is
always empty. -/
def GetCachedIPs (r : Resolver) (now : Int) (host : String) :
    (List IP × Bool) × Resolver × List String :=
  match load r.cache host with
  | none => (([], false), r, [])
  | some ce =>
    if now > ce.expires then (([], false), { r with cache := delete' r.cache host }, [])
    else ((ce.ips, true), r, [])

/-- Function `ClearCache` from `name.go`: deletes every entry. -/
def ClearCache (r : Resolver) : Resolver :=
  { r with cache := [] }

/-- Function `ClearHost` from `name.go`. -/
def ClearHost (r : Resolver) (host : String) : Resolver :=
  { r with cache := delete' r.cache host }

/-- Function `RefreshCache` from `name.go`: launches one background resolution per
currently cached host (fire-and-forget), changing no state itself. -/
def RefreshCache (r : Resolver) : Resolver × List String :=
  (r, r.cache.map (fun p => p.1))

/-- Function `CacheCount` from `name.go`: number of entries currently in the cache. -/
def CacheCount (r : Resolver) : Nat :=
  r.cache.length

/-- Function `SetTTL` from `name.go`: stores the given duration unconditionally. -/
def SetTTL (r : Resolver) (ttl : Int) : Resolver :=
  { r with ttl := ttl }

/-- Function `GetTTL` from `name.go`. -/
def GetTTL (r : Resolver) : Int :=
  r.ttl

/-- One iteration counter step of the dial closure in `NewResolver`:
`atomic.AddUint32(&r.serverIndex, 1) - 1` yields the previous `uint32` value. -/
def uint32succ (n : Nat) : Nat := (n + 1) % 2 ^ 32

/-- The server string dialed when the shared counter holds `m`:
`dnsServers[int(idx)%len(dnsServers)] + defaultDNSPort` with `idx` the
`uint32` value of the counter. -/
def serverAt (servers : List String) (m : Nat) : String :=
  servers.getD (m % 2 ^ 32 % servers.length) "" ++ ":53"

/-- The `for range dnsServers` loop of the dial closure in `NewResolver`,
with the remaining iteration count as fuel (`servers.length` at entry).
`dial` is the external `net.Dialer.DialContext`, returning the connection
(modelled as the dialed server string) or an error message. Returns the loop
outcome and the final counter. -/
def dialLoop (servers : List String) (dial : String → Except String String) :
    Nat → Nat → Option String → (Except String String) × Nat
  | counter, 0, lastErr =>
    (.error ("all DNS servers failed: " ++ lastErr.getD ""), counter)
  | counter, k + 1, _lastErr =>
    let server := serverAt servers counter
    let counter' := uint32succ counter
    match dial server with
    | .ok conn => (.ok conn, counter')
    | .error e => dialLoop servers dial counter' k (some e)

/-- The whole dial closure installed by `NewResolver` when custom servers are
configured: iterate the round-robin loop over all servers once. -/
def resolverDial (servers : List String) (dial : String → Except String String)
    (counter : Nat) : (Except String String) × Nat :=
  dialLoop servers dial counter servers.length none

/-- Runs `k` sequential calls of the dial closure: the list of outcomes and the final
counter (models `k` successive resolution attempts, each dialing once on
success). -/
def dialTrace (servers : List String) (dial : String → Except String String)
    (counter : Nat) : Nat → List (Except String String) × Nat
  | 0 => ([], counter)
  | k + 1 =>
    let (res, c') := resolverDial servers dial counter
    let (rest, c'') := dialTrace servers dial c' k
    (res :: rest, c'')

/-- The invariant of §3 of the spec: every cached entry has
`staleAt ≤ expiresAt`. -/
def cacheInv (c : Cache) : Prop :=
  ∀ p ∈ c, p.2.stale ≤ p.2.expires

instance (c : Cache) : Decidable (cacheInv c) :=
  decidable_of_iff (∀ p ∈ c, p.2.stale ≤ p.2.expires) Iff.rfl

/-! ### Concrete test fixtures (used by counterexamples and witnesses) -/

/-- A concrete `net.SplitHostPort` covering the addresses used by the
fixtures. -/
def splitColon (s : String) : Except Unit (String × String) :=
  if s = "1.2.3.4:80" then .ok ("1.2.3.4", "80")
  else if s = "1.2.3.4:-1" then .ok ("1.2.3.4", "-1")
  else if s = "h:1" then .ok ("h", "1")
  else if s = "h:x" then .ok ("h", "x")
  else .error ()

/-- A concrete `net.ParseIP` recognizing the single literal `1.2.3.4`. -/
def parseLit (s : String) : Option IP :=
  if s = "1.2.3.4" then some [1, 2, 3, 4] else none

/-- Environment where no host is an IP literal and the backend always succeeds
with `[1.2.3.4]`. -/
def envA : Env :=
  { parseIP := fun _ => none
    splitHostPort := splitColon
    lookupIP := fun _ => .ok [[1, 2, 3, 4]] }

/-- Environment recognizing the literal `1.2.3.4`. -/
def envLit : Env :=
  { parseIP := parseLit
    splitHostPort := splitColon
    lookupIP := fun _ => .ok [[1, 2, 3, 4]] }

/-- Environment whose backend lookup always fails. -/
def envFail : Env :=
  { parseIP := fun _ => none
    splitHostPort := splitColon
    lookupIP := fun _ => .error "boom" }

/-- Environment whose backend lookup succeeds with zero addresses. -/
def envEmptyRes : Env :=
  { parseIP := fun _ => none
    splitHostPort := splitColon
    lookupIP := fun _ => .ok [] }

/-- A cached entry for host `h`: stale at 10, expires at 20. -/
def entry0 : cacheEntry := { ips := [[9, 9, 9, 9]], expires := 20, stale := 10 }

/-- A resolver holding `entry0` under key `h`, ttl 100. -/
def r0 : Resolver := { cache := [("h", entry0)], ttl := 100, dnsServers := [], serverIndex := 0 }

/-- A resolver with an empty cache, ttl 100. -/
def rEmpty : Resolver := { cache := [], ttl := 100, dnsServers := [], serverIndex := 0 }

/-- The resolver state after a successful resolution of `h` at time 0 under
`envA` (ttl 100, so the entry expires at 100 and goes stale at 80). -/
def rAfter : Resolver := (resolveDNS envA rEmpty 0 "h").2

/-- The resolver state after `SetTTL(-100)` followed by a successful resolution
of `h` at time 0 under `envA` (the stored entry has `expires = -100`,
`stale = -80`). -/
def rNeg : Resolver := (resolveDNS envA (SetTTL rEmpty (-100)) 0 "h").2

/-! ### Helper lemmas about the cache model -/

theorem load_store_self (c : Cache) (h : String) (e : cacheEntry) :
    load (store c h e) h = some e := by
  unfold load store
  rw [List.find?_cons_of_pos _ (by simp)]
  rfl

theorem load_delete_self (c : Cache) (h : String) :
    load (delete' c h) h = none := by
  have hf : (delete' c h).find? (fun p => p.1 == h) = none := by
    rw [List.find?_eq_none]
    intro x hx
    have hm := (List.mem_filter.mp hx).2
    simpa using hm
  simp [load, hf]

theorem cacheInv_delete (c : Cache) (h : String) (hc : cacheInv c) :
    cacheInv (delete' c h) :=
  fun p hp => hc p (List.mem_of_mem_filter hp)

theorem cacheInv_store (c : Cache) (h : String) (e : cacheEntry)
    (hc : cacheInv c) (he : e.stale ≤ e.expires) : cacheInv (store c h e) := by
  intro p hp
  rcases List.mem_cons.mp hp with rfl | hp'
  · exact he
  · exact cacheInv_delete c h hc p hp'

theorem find?_first {α : Type} (p : α → Bool) (pre : List α) (a : α) (post : List α)
    (hpre : ∀ x ∈ pre, p x = false) (ha : p a = true) :
    (pre ++ a :: post).find? p = some a := by
  induction pre with
  | nil => simpa using List.find?_cons_of_pos post ha
  | cons b l ih =>
    rw [List.cons_append, List.find?_cons_of_neg]
    · exact ih fun x hx => hpre x (List.mem_cons_of_mem b hx)
    · simp [hpre b (List.mem_cons_self b l)]

theorem tdiv_80_100_le (t : Int) (h : 0 ≤ t) : Int.tdiv (t * 80) 100 ≤ t := by
  have h1 : Int.tdiv (t * 80) 100 = (t * 80) / 100 :=
    Int.tdiv_eq_ediv (by positivity) (by norm_num)
  rw [h1]
  calc (t * 80) / 100 ≤ (t * 100) / 100 := by
        apply Int.ediv_le_ediv (by norm_num)
        nlinarith
    _ = t := by omega

/-! ### C1: stale reads and the background-refresh threshold -/

/-- C1 counterexample: at `now = staleAt` exactly (with `staleAt ≤ now <
expiresAt`, as the claim requires), `lookupHost` returns the cached list but
launches NO background refresh — the code's test `now.After(ce.stale)` is
strict, so the threshold is `now > staleAt`, not `now ≥ staleAt` as claimed. -/
theorem lookupHost_staleAt_boundary_no_refresh :
    load r0.cache "h" = some entry0 ∧
    entry0.stale ≤ 10 ∧ (10 : Int) < entry0.expires ∧
    lookupHost envA r0 10 "h" = (.ok entry0.ips, r0, []) := by
  refine ⟨?_, ?_, ?_, ?_⟩ <;> decide

/-- C1 (amended): for a cached, non-literal host read at a time `now` with
`staleAt < now < expiresAt` (strict stale threshold), `lookupHost` returns
the cached address list immediately, leaves the state unchanged, and launches
exactly one background refresh resolution for that host. -/
theorem lookupHost_stale_read (env : Env) (r : Resolver) (now : Int) (host : String)
    (ce : cacheEntry) (hpi : env.parseIP host = none)
    (hload : load r.cache host = some ce)
    (hstale : ce.stale < now) (hexp : now < ce.expires) :
    lookupHost env r now host = (.ok ce.ips, r, [host]) := by
  simp only [lookupHost, hpi, hload]
  rw [if_pos hexp, if_pos hstale]

theorem lookupHost_stale_read_witness :
    entry0.stale < 11 ∧ (11 : Int) < entry0.expires ∧
    lookupHost envA r0 11 "h" = (.ok entry0.ips, r0, ["h"]) :=
  ⟨by decide, by decide,
   lookupHost_stale_read envA r0 11 "h" entry0 rfl (by decide) (by decide) (by decide)⟩

/-! ### C2: `GetCachedIPs` after a successful resolution -/

/-- C2 counterexample: after a successful resolution of `h` at `t0 = 0` with
ttl 100, a `GetCachedIPs` read at exactly `t = t0 + T = 100` still returns
`found = true` — the claim requires `found = false` for every `t ≥ t0 + T`,
but the code's expiry test `time.Now().After(ce.expires)` is strict. -/
theorem getCachedIPs_expiry_boundary_found :
    rEmpty.ttl = 100 ∧
    resolveDNS envA rEmpty 0 "h" = (.ok [[1, 2, 3, 4]], rAfter) ∧
    (GetCachedIPs rAfter 100 "h").1 = ([[1, 2, 3, 4]], true) := by
  refine ⟨?_, ?_, ?_⟩ <;> decide

/-- C2 (amended): after a successful resolution of host `H` with TTL `T` at
time `t0`, `GetCachedIPs H` returns `found = true` for every read time `t` in
the closed interval `[t0, t0 + T]` and `found = false` for every `t > t0 + T`
(expiry uses the strict `After`, so the boundary instant is still found); an
expired read deletes the entry (`ClearHost`) and triggers no resolution or
refresh (the launched-task list is empty in both cases). -/
theorem getCachedIPs_after_resolution (env : Env) (r r' : Resolver) (t0 t : Int)
    (host : String) (ips : List IP)
    (hlk : env.lookupIP host = .ok ips) (hne : ips ≠ [])
    (hres : resolveDNS env r t0 host = (.ok ips, r')) :
    (t0 ≤ t → t ≤ t0 + r.ttl → GetCachedIPs r' t host = ((ips, true), r', [])) ∧
    (t0 + r.ttl < t → GetCachedIPs r' t host = (([], false), ClearHost r' host, [])) := by
  have hlen : ¬ ips.length = 0 := by
    simpa using hne
  simp only [resolveDNS, hlk] at hres
  rw [if_neg hlen] at hres
  injection hres with h1 h2
  subst h2
  constructor
  · intro _ hle
    simp only [GetCachedIPs, load_store_self]
    rw [if_neg (by omega)]
  · intro hgt
    simp only [GetCachedIPs, load_store_self]
    rw [if_pos (by omega)]
    rfl

theorem getCachedIPs_after_resolution_witness :
    GetCachedIPs rAfter 50 "h" = (([[1, 2, 3, 4]], true), rAfter, []) ∧
    GetCachedIPs rAfter 101 "h" = (([], false), ClearHost rAfter "h", []) :=
  ⟨(getCachedIPs_after_resolution envA rEmpty rAfter 0 50 "h" [[1, 2, 3, 4]]
      rfl (by decide) (by decide)).1 (by decide) (by decide),
   (getCachedIPs_after_resolution envA rEmpty rAfter 0 101 "h" [[1, 2, 3, 4]]
      rfl (by decide) (by decide)).2 (by decide)⟩

/-! ### C3: failure propagation caches nothing -/

/-- C3 (confirmed): when the backend lookup fails, or succeeds with zero
addresses, `resolveDNS` returns the corresponding error (the backend error is
carried verbatim inside `lookupFailed`, as `fmt.Errorf`'s `%w` wraps it) and
returns the resolver completely unchanged — no cache entry is created or
modified, so any previously cached entry for the host is left untouched; on a
cache miss, `lookupHost` (the resolution entry point) passes the result of
`resolveDNS` through verbatim. -/
theorem resolveDNS_failure_no_cache (env : Env) (r : Resolver) (now : Int) (host : String) :
    (∀ err, env.lookupIP host = .error err →
      resolveDNS env r now host = (.error (.lookupFailed host err), r)) ∧
    (env.lookupIP host = .ok [] →
      resolveDNS env r now host = (.error (.noRecords host), r)) ∧
    (∀ res r', env.parseIP host = none → load r.cache host = none →
      resolveDNS env r now host = (res, r') →
      lookupHost env r now host = (res, r', [])) := by
  refine ⟨?_, ?_, ?_⟩
  · intro err herr
    simp only [resolveDNS, herr]
  · intro hok
    simp only [resolveDNS, hok, List.length_nil, if_pos]
  · intro res r' hpi hload hres
    simp only [lookupHost, hpi, hload, hres]

theorem resolveDNS_failure_no_cache_witness :
    resolveDNS envFail r0 5 "x" = (.error (.lookupFailed "x" "boom"), r0) ∧
    resolveDNS envEmptyRes r0 5 "x" = (.error (.noRecords "x"), r0) ∧
    lookupHost envFail r0 5 "x" = (.error (.lookupFailed "x" "boom"), r0, []) :=
  ⟨(resolveDNS_failure_no_cache envFail r0 5 "x").1 "boom" rfl,
   (resolveDNS_failure_no_cache envEmptyRes r0 5 "x").2.1 rfl,
   (resolveDNS_failure_no_cache envFail r0 5 "x").2.2
     (.error (.lookupFailed "x" "boom")) r0 rfl (by decide)
     ((resolveDNS_failure_no_cache envFail r0 5 "x").1 "boom" rfl)⟩

/-! ### C4: literal-IP short-circuit bypasses the cache -/

/-- C4 (confirmed): when the host parses as a literal IP address,
`lookupHost` returns that single address immediately, leaves the resolver
(and hence `CacheCount`) unchanged, and launches no background refresh; also,
any `resolveAddr` call whose address splits into such a host leaves the
resolver unchanged, whatever the network argument. -/
theorem lookupHost_literal_bypass (env : Env) (r : Resolver) (now : Int) (host : String)
    (ip : IP) (hpi : env.parseIP host = some ip) :
    lookupHost env r now host = (.ok [ip], r, []) ∧
    CacheCount (lookupHost env r now host).2.1 = CacheCount r ∧
    (∀ network address port, env.splitHostPort address = .ok (host, port) →
      (resolveAddr env r now network address).2.1 = r) := by
  have hmain : lookupHost env r now host = (.ok [ip], r, []) := by
    simp only [lookupHost, hpi]
  refine ⟨hmain, by rw [hmain], ?_⟩
  intro network address port hsplit
  simp only [resolveAddr, hsplit]
  cases hat : atoi port with
  | error e => rfl
  | ok n =>
    simp only [hmain]
    cases selectIP network host [ip] <;> rfl

theorem lookupHost_literal_bypass_witness :
    lookupHost envLit r0 7 "1.2.3.4" = (.ok [[1, 2, 3, 4]], r0, []) ∧
    CacheCount (lookupHost envLit r0 7 "1.2.3.4").2.1 = CacheCount r0 ∧
    (resolveAddr envLit r0 7 "tcp" "1.2.3.4:80").2.1 = r0 := by
  obtain ⟨h1, h2, h3⟩ := lookupHost_literal_bypass envLit r0 7 "1.2.3.4" [1, 2, 3, 4] (by decide)
  exact ⟨h1, h2, h3 "tcp" "1.2.3.4:80" "80" (by decide)⟩

/-! ### C5: address-family filtering -/

/-- C5 (confirmed): over every non-empty resolved list, the `switch network`
selection of `resolveAddr` scans in original order: for `tcp4`/`udp4` it
returns the first address with a valid 4-byte representation (`To4 != nil`),
failing with `noIPv4` when none exists; for `tcp6`/`udp6` it returns the first
address lacking a 4-byte representation but having a 16-byte one, failing with
`noIPv6` when none exists; for any other network it returns the first address
regardless of family. -/
theorem selectIP_family (network host : String) (ips : List IP) (hne : ips ≠ []) :
    ((network = "tcp4" ∨ network = "udp4") →
      (∀ pre ip post, ips = pre ++ ip :: post → (∀ x ∈ pre, hasTo4 x = false) →
        hasTo4 ip = true → selectIP network host ips = .ok ip) ∧
      ((∀ x ∈ ips, hasTo4 x = false) →
        selectIP network host ips = .error (.noIPv4 host))) ∧
    ((network = "tcp6" ∨ network = "udp6") →
      (∀ pre ip post, ips = pre ++ ip :: post → (∀ x ∈ pre, isV6Only x = false) →
        isV6Only ip = true → selectIP network host ips = .ok ip) ∧
      ((∀ x ∈ ips, isV6Only x = false) →
        selectIP network host ips = .error (.noIPv6 host))) ∧
    (network ≠ "tcp4" → network ≠ "udp4" → network ≠ "tcp6" → network ≠ "udp6" →
      ∀ ip rest, ips = ip :: rest → selectIP network host ips = .ok ip) := by
  refine ⟨fun h4 => ⟨?_, ?_⟩, fun h6 => ⟨?_, ?_⟩, fun n1 n2 n3 n4 ip rest hcons => ?_⟩
  · intro pre ip post hsplit hpre hip
    subst hsplit
    simp only [selectIP, if_pos h4, find?_first hasTo4 pre ip post hpre hip]
  · intro hall
    have hnone : ips.find? hasTo4 = none :=
      List.find?_eq_none.mpr fun x hx => by simp [hall x hx]
    simp only [selectIP, if_pos h4, hnone]
  · intro pre ip post hsplit hpre hip
    have hn4 : ¬ (network = "tcp4" ∨ network = "udp4") := by
      rcases h6 with rfl | rfl <;> simp
    subst hsplit
    simp only [selectIP, if_neg hn4, if_pos h6,
      find?_first isV6Only pre ip post hpre hip]
  · intro hall
    have hn4 : ¬ (network = "tcp4" ∨ network = "udp4") := by
      rcases h6 with rfl | rfl <;> simp
    have hnone : ips.find? isV6Only = none :=
      List.find?_eq_none.mpr fun x hx => by simp [hall x hx]
    simp only [selectIP, if_neg hn4, if_pos h6, hnone]
  · have hn4 : ¬ (network = "tcp4" ∨ network = "udp4") := by
      rintro (rfl | rfl) <;> simp_all
    have hn6 : ¬ (network = "tcp6" ∨ network = "udp6") := by
      rintro (rfl | rfl) <;> simp_all
    subst hcons
    simp only [selectIP, if_neg hn4, if_neg hn6]

theorem selectIP_family_witness :
    selectIP "tcp4" "h" [[0, 0, 0, 0, 0, 0, 0, 0, 0, 0, 0, 0, 0, 0, 0, 1], [1, 2, 3, 4]] =
      .ok [1, 2, 3, 4] ∧
    selectIP "udp6" "h" [[1, 2, 3, 4], [0, 0, 0, 0, 0, 0, 0, 0, 0, 0, 0, 0, 0, 0, 0, 1]] =
      .ok [0, 0, 0, 0, 0, 0, 0, 0, 0, 0, 0, 0, 0, 0, 0, 1] ∧
    selectIP "tcp4" "h" [[0, 0, 0, 0, 0, 0, 0, 0, 0, 0, 0, 0, 0, 0, 0, 1]] =
      .error (.noIPv4 "h") ∧
    selectIP "tcp" "h" [[0, 0, 0, 0, 0, 0, 0, 0, 0, 0, 0, 0, 0, 0, 0, 1], [1, 2, 3, 4]] =
      .ok [0, 0, 0, 0, 0, 0, 0, 0, 0, 0, 0, 0, 0, 0, 0, 1] :=
  ⟨((selectIP_family "tcp4" "h" _ (by decide)).1 (Or.inl rfl)).1
      [[0, 0, 0, 0, 0, 0, 0, 0, 0, 0, 0, 0, 0, 0, 0, 1]] [1, 2, 3, 4] [] rfl
      (by decide) (by decide),
   ((selectIP_family "udp6" "h" _ (by decide)).2.1 (Or.inr rfl)).1
      [[1, 2, 3, 4]] [0, 0, 0, 0, 0, 0, 0, 0, 0, 0, 0, 0, 0, 0, 0, 1] [] rfl
      (by decide) (by decide),
   ((selectIP_family "tcp4" "h" _ (by decide)).1 (Or.inl rfl)).2 (by decide),
   (selectIP_family "tcp" "h" _ (by decide)).2.2 (by decide) (by decide) (by decide)
      (by decide) [0, 0, 0, 0, 0, 0, 0, 0, 0, 0, 0, 0, 0, 0, 0, 1] [[1, 2, 3, 4]] rfl⟩

/-! ### C9: unrecognized networks behave as the any family -/

/-- C9 (confirmed): for every network string other than `tcp4`, `udp4`,
`tcp6`, `udp6` — including `tcp`, `udp` and arbitrary strings — the selection
switch of `resolveAddr` performs no validation and returns the first address
of the resolved list; consequently `resolveAddr` returns that first address
whenever the split, port parse and host lookup succeed. -/
theorem selectIP_unrecognized_network (network host : String) (ip : IP) (rest : List IP)
    (h1 : network ≠ "tcp4") (h2 : network ≠ "udp4")
    (h3 : network ≠ "tcp6") (h4 : network ≠ "udp6") :
    selectIP network host (ip :: rest) = .ok ip ∧
    (∀ env r now address port n r' tasks,
      env.splitHostPort address = .ok (host, port) → atoi port = .ok n →
      lookupHost env r now host = (.ok (ip :: rest), r', tasks) →
      resolveAddr env r now network address = (.ok (ip, n), r', tasks)) := by
  have hsel : selectIP network host (ip :: rest) = .ok ip := by
    have hn4 : ¬ (network = "tcp4" ∨ network = "udp4") := by
      rintro (rfl | rfl) <;> simp_all
    have hn6 : ¬ (network = "tcp6" ∨ network = "udp6") := by
      rintro (rfl | rfl) <;> simp_all
    simp only [selectIP, if_neg hn4, if_neg hn6]
  refine ⟨hsel, ?_⟩
  intro env r now address port n r' tasks hsplit hatoi hlook
  simp only [resolveAddr, hsplit, hatoi, hlook, hsel]

theorem selectIP_unrecognized_network_witness :
    selectIP "bogus" "h" [[1, 2, 3, 4]] = .ok [1, 2, 3, 4] ∧
    resolveAddr envA rEmpty 0 "bogus" "h:1" = (.ok ([1, 2, 3, 4], 1), rAfter, []) := by
  obtain ⟨hsel, hres⟩ :=
    selectIP_unrecognized_network "bogus" "h" [1, 2, 3, 4] []
      (by decide) (by decide) (by decide) (by decide)
  exact ⟨hsel, hres envA rEmpty 0 "h:1" "1" 1 rAfter [] (by decide) (by decide) (by decide)⟩

/-! ### C7: port parsing -/

/-- C7 counterexample: the port component `-1` is not a decimal number ≥ 0,
yet `resolveAddr` accepts it — `strconv.Atoi` parses an optional sign, so the
call succeeds and returns the negative port `-1` instead of failing. -/
theorem resolveAddr_negative_port_accepted :
    atoi "-1" = .ok (-1) ∧ (-1 : Int) < 0 ∧
    resolveAddr envLit rEmpty 0 "tcp" "1.2.3.4:-1" =
      (.ok ([1, 2, 3, 4], -1), rEmpty, []) := by
  refine ⟨by decide, by decide, by decide⟩

/-- C7 (amended): `resolveAddr` parses the port component independently of the
host as a signed decimal integer (`strconv.Atoi`: optional sign then decimal
digits, within the 64-bit int range — negative ports are accepted); a port
that is not valid decimal format fails with `invalidPort`, leaving the
resolver unchanged, and on success the parsed value is returned as the port
whatever the host resolves to. -/
theorem resolveAddr_port_parsing (env : Env) (r : Resolver) (now : Int)
    (network address host port : String)
    (hsplit : env.splitHostPort address = .ok (host, port)) :
    (atoi port = .error () →
      resolveAddr env r now network address = (.error (.invalidPort port), r, [])) ∧
    (∀ n, atoi port = .ok n →
      (∀ ipn r' tasks, resolveAddr env r now network address = (.ok ipn, r', tasks) →
        ipn.2 = n) ∧
      -(2 ^ 63) ≤ n ∧ n ≤ 2 ^ 63 - 1) := by
  constructor
  · intro herr
    simp only [resolveAddr, hsplit, herr]
  · intro n hn
    constructor
    · intro ipn r' tasks hres
      simp only [resolveAddr, hsplit, hn] at hres
      split at hres
      · exact absurd hres (by simp)
      · split at hres
        · exact absurd hres (by simp)
        · injection hres with ha hb
          injection ha with hi
          rw [← hi]
    · unfold atoi at hn
      dsimp only at hn
      split at hn
      · exact absurd hn (by simp)
      · split at hn
        · split at hn <;> split at hn
          all_goals first
            | exact Except.noConfusion hn
            | (rename_i hrange
               injection hn with hv
               rw [← hv]
               constructor <;> omega)
        · exact absurd hn (by simp)

theorem resolveAddr_port_parsing_witness :
    resolveAddr envA rEmpty 0 "tcp" "h:x" = (.error (.invalidPort "x"), rEmpty, []) ∧
    (([1, 2, 3, 4] : IP), (1 : Int)).2 = 1 ∧
    -(2 ^ 63) ≤ (1 : Int) ∧ (1 : Int) ≤ 2 ^ 63 - 1 := by
  obtain ⟨herr, hok⟩ :=
    resolveAddr_port_parsing envA rEmpty 0 "tcp" "h:x" "h" "x" (by decide)
  obtain ⟨herr1, hok1⟩ :=
    resolveAddr_port_parsing envA rEmpty 0 "tcp" "h:1" "h" "1" (by decide)
  obtain ⟨hval, hlo, hhi⟩ := hok1 1 (by decide)
  exact ⟨herr (by decide), hval ([1, 2, 3, 4], 1) rAfter [] (by decide), hlo, hhi⟩

/-! ### C6: round-robin server selection with failover -/

theorem resolverDial_ok (servers : List String) (dial : String → Except String String)
    (counter : Nat) (conn : String) (hne : servers ≠ [])
    (hd : dial (serverAt servers counter) = .ok conn) :
    resolverDial servers dial counter = (.ok conn, uint32succ counter) := by
  obtain ⟨m, hm⟩ : ∃ m, servers.length = m + 1 := by
    cases hl : servers.length with
    | zero => exact absurd (List.length_eq_zero.mp hl) hne
    | succ m => exact ⟨m, rfl⟩
  unfold resolverDial
  rw [hm]
  simp only [dialLoop, hd]

theorem dialLoop_all_fail (servers : List String) (dial : String → Except String String)
    (errf : String → String) (hdial : ∀ s, dial s = .error (errf s)) :
    ∀ k counter lastErr, dialLoop servers dial counter (k + 1) lastErr =
      (.error ("all DNS servers failed: " ++ errf (serverAt servers ((counter + k) % 2 ^ 32))),
       (counter + k + 1) % 2 ^ 32) := by
  intro k
  induction k with
  | zero =>
    intro counter lastErr
    have h1 : counter % 2 ^ 32 % 2 ^ 32 = counter % 2 ^ 32 :=
      Nat.mod_mod_of_dvd counter dvd_rfl
    simp only [dialLoop, hdial, uint32succ, serverAt, Option.getD_some, Nat.add_zero, h1]
  | succ k ih =>
    intro counter lastErr
    conv_lhs => rw [dialLoop.eq_def]
    simp only [hdial, uint32succ]
    rw [ih]
    have h1 : ((counter + 1) % 2 ^ 32 + k) % 2 ^ 32 = (counter + (k + 1)) % 2 ^ 32 := by
      omega
    have h2 : ((counter + 1) % 2 ^ 32 + k + 1) % 2 ^ 32 = (counter + (k + 1) + 1) % 2 ^ 32 := by
      omega
    rw [h1, h2]

/-- C6 (confirmed): with a configured server list of length `N > 0`, each dial
attempt uses `list[counter mod N]` where `counter` is the shared
atomically-incremented `uint32` (first conjunct: a successful first attempt
dials `serverAt counter` and advances the counter once); with no failures,
sequential dial calls cycle through the servers in counter order (second
conjunct); and when every server fails, after all `N` servers have been tried
the dial fails with `all DNS servers failed` wrapping the last underlying
failure — the error of the `N`-th attempted server — having advanced the
counter `N` times (third conjunct). -/
theorem roundRobin_servers (servers : List String) (dial : String → Except String String)
    (counter : Nat) :
    (∀ conn, servers ≠ [] → dial (serverAt servers counter) = .ok conn →
      resolverDial servers dial counter = (.ok conn, uint32succ counter)) ∧
    ((∀ s, dial s = .ok s) → servers ≠ [] → ∀ k,
      (dialTrace servers dial counter k).1 =
        (List.range k).map (fun i => .ok (serverAt servers ((counter + i) % 2 ^ 32)))) ∧
    (∀ errf : String → String, (∀ s, dial s = .error (errf s)) → ∀ m, servers.length = m + 1 →
      resolverDial servers dial counter =
        (.error ("all DNS servers failed: " ++
          errf (serverAt servers ((counter + m) % 2 ^ 32))),
         (counter + m + 1) % 2 ^ 32)) := by
  refine ⟨fun conn hne hd => resolverDial_ok servers dial counter conn hne hd, ?_, ?_⟩
  · intro hdial hne k
    induction k generalizing counter with
    | zero => rfl
    | succ k ih =>
      have hstep : resolverDial servers dial counter =
          (.ok (serverAt servers counter), uint32succ counter) :=
        resolverDial_ok servers dial counter (serverAt servers counter) hne
          (hdial (serverAt servers counter))
      simp only [dialTrace, hstep]
      rw [ih]
      rw [List.range_succ_eq_map, List.map_cons, List.map_map]
      congr 1
      · have h0 : counter % 2 ^ 32 % 2 ^ 32 = counter % 2 ^ 32 :=
          Nat.mod_mod_of_dvd counter dvd_rfl
        simp only [serverAt, Nat.add_zero, h0]
      · apply List.map_congr_left
        intro i _
        have : (uint32succ counter + i) % 2 ^ 32 = (counter + (i + 1)) % 2 ^ 32 := by
          simp only [uint32succ]
          omega
        simp only [Function.comp, this]
  · intro errf hdial m hm
    unfold resolverDial
    rw [hm]
    exact dialLoop_all_fail servers dial errf hdial m counter none

theorem roundRobin_servers_witness :
    resolverDial ["A", "B", "C"] (fun s => .ok s) 0 = (.ok "A:53", 1) ∧
    (dialTrace ["A", "B", "C"] (fun s => .ok s) 0 4).1 =
      [.ok "A:53", .ok "B:53", .ok "C:53", .ok "A:53"] ∧
    resolverDial ["A", "B", "C"] (fun s => .error ("fail " ++ s)) 0 =
      (.error "all DNS servers failed: fail C:53", 3) := by
  obtain ⟨h1, h2, h3⟩ := roundRobin_servers ["A", "B", "C"] (fun s => .ok s) 0
  obtain ⟨-, -, h3f⟩ := roundRobin_servers ["A", "B", "C"] (fun s => .error ("fail " ++ s)) 0
  refine ⟨h1 "A:53" (by decide) (by decide), ?_, ?_⟩
  · rw [h2 (fun s => rfl) (by decide) 4]
    decide
  · have := h3f (fun s => "fail " ++ s) (fun s => rfl) 2 rfl
    rw [this]
    decide

/-! ### C8: the stored-entry timestamp invariant -/

theorem resolveDNS_stores (env : Env) (r : Resolver) (now : Int) (host : String)
    (ips : List IP) (hlk : env.lookupIP host = .ok ips) (hne : ips ≠ []) :
    resolveDNS env r now host =
      (.ok ips, { r with cache := store r.cache host ⟨ips, now + r.ttl, now + Int.tdiv (r.ttl * refreshThreshold) 100⟩ }) := by
  have hlen : ¬ ips.length = 0 := by simpa using hne
  simp only [resolveDNS, hlk]
  rw [if_neg hlen]

theorem cacheInv_resolveDNS (env : Env) (r : Resolver) (now : Int) (host : String)
    (httl : 0 ≤ r.ttl) (hc : cacheInv r.cache) :
    cacheInv (resolveDNS env r now host).2.cache := by
  unfold resolveDNS
  cases hlk : env.lookupIP host with
  | error e => exact hc
  | ok ips =>
    dsimp only
    split
    · exact hc
    · apply cacheInv_store _ _ _ hc
      have hle := tdiv_80_100_le r.ttl httl
      simp only [refreshThreshold]
      omega

theorem cacheInv_lookupHost (env : Env) (r : Resolver) (now : Int) (host : String)
    (httl : 0 ≤ r.ttl) (hc : cacheInv r.cache) :
    cacheInv (lookupHost env r now host).2.1.cache := by
  unfold lookupHost
  cases hpi : env.parseIP host with
  | some ip => exact hc
  | none =>
    cases hl : load r.cache host with
    | none =>
      dsimp only
      rcases hres : resolveDNS env r now host with ⟨res, r2⟩
      have hinv := cacheInv_resolveDNS env r now host httl hc
      rw [hres] at hinv
      exact hinv
    | some ce =>
      dsimp only
      split
      · split
        · exact hc
        · exact hc
      · rcases hres : resolveDNS env { r with cache := delete' r.cache host } now host
          with ⟨res, r2⟩
        have hinv := cacheInv_resolveDNS env { r with cache := delete' r.cache host }
          now host httl (cacheInv_delete r.cache host hc)
        rw [hres] at hinv
        exact hinv

/-- C8 counterexample: with `ttl = -100` installed by `SetTTL` (see C10), a
successful resolution stores an entry whose `staleAt` (-80) is strictly AFTER
its `expiresAt` (-100); the truncating division makes `ttl*80/100 > ttl` for
negative ttl, so `staleAt ≤ expiresAt` fails for an entry stored by a
successful resolution. -/
theorem stale_after_expires_with_negative_ttl :
    load rNeg.cache "h" = some { ips := [[1, 2, 3, 4]], expires := -100, stale := -80 } ∧
    ¬ ((-80 : Int) ≤ (-100 : Int)) := by
  exact ⟨by decide, by decide⟩

/-- C8 (amended): every cache entry stored by a successful resolution at time
`now` satisfies `expiresAt = now + ttl` and `staleAt = now + (ttl*80)/100`
(Go's truncating integer division of `ttl*refreshThreshold/100`, the spec's
`ttl*0.8`); whenever the resolver's current ttl is ≥ 0 — always the case
unless `SetTTL` installed a negative ttl — this gives `staleAt ≤ expiresAt`,
and that invariant over all entries is preserved by every operation (entries
are only ever replaced whole, never mutated); with a negative ttl the stored
entry instead has `staleAt > expiresAt`. -/
theorem cache_entry_invariant (env : Env) (r : Resolver) (now : Int)
    (host network address : String) :
    (∀ ips, env.lookupIP host = .ok ips → ips ≠ [] →
      load (resolveDNS env r now host).2.cache host =
        some ⟨ips, now + r.ttl, now + Int.tdiv (r.ttl * refreshThreshold) 100⟩) ∧
    (0 ≤ r.ttl → now + Int.tdiv (r.ttl * refreshThreshold) 100 ≤ now + r.ttl) ∧
    (0 ≤ r.ttl → cacheInv r.cache →
      cacheInv (resolveDNS env r now host).2.cache ∧
      cacheInv (lookupHost env r now host).2.1.cache ∧
      cacheInv (GetCachedIPs r now host).2.1.cache ∧
      cacheInv (ClearHost r host).cache ∧
      cacheInv (ClearCache r).cache ∧
      cacheInv (resolveAddr env r now network address).2.1.cache) := by
  refine ⟨?_, ?_, ?_⟩
  · intro ips hlk hne
    rw [resolveDNS_stores env r now host ips hlk hne]
    exact load_store_self _ _ _
  · intro httl
    have hle := tdiv_80_100_le r.ttl httl
    simp only [refreshThreshold]
    omega
  · intro httl hc
    refine ⟨cacheInv_resolveDNS env r now host httl hc,
      cacheInv_lookupHost env r now host httl hc, ?_, cacheInv_delete r.cache host hc,
      ?_, ?_⟩
    · unfold GetCachedIPs
      cases hl : load r.cache host with
      | none => exact hc
      | some ce =>
        dsimp only
        split
        · exact cacheInv_delete r.cache host hc
        · exact hc
    · intro p hp
      simp [ClearCache] at hp
    · unfold resolveAddr
      cases hsp : env.splitHostPort address with
      | error e => exact hc
      | ok hp =>
        dsimp only
        cases hat : atoi hp.2 with
        | error e => exact hc
        | ok n =>
          dsimp only
          rcases hlook : lookupHost env r now hp.1 with ⟨res, r2, tasks⟩
          have hinv := cacheInv_lookupHost env r now hp.1 httl hc
          rw [hlook] at hinv
          cases res with
          | error e => exact hinv
          | ok ips =>
            dsimp only
            cases selectIP network hp.1 ips with
            | error e => exact hinv
            | ok ip => exact hinv

theorem cache_entry_invariant_witness :
    load (resolveDNS envA r0 0 "h").2.cache "h" =
      some { ips := [[1, 2, 3, 4]], expires := 100, stale := 80 } ∧
    (0 : Int) + Int.tdiv (r0.ttl * refreshThreshold) 100 ≤ 0 + r0.ttl ∧
    cacheInv (lookupHost envA r0 0 "h").2.1.cache ∧
    cacheInv (resolveAddr envA r0 0 "tcp" "h:1").2.1.cache := by
  obtain ⟨h1, h2, h3⟩ := cache_entry_invariant envA r0 0 "h" "tcp" "h:1"
  obtain ⟨hd, hl, hg, hch, hcc, hra⟩ := h3 (by decide) (by decide)
  refine ⟨?_, h2 (by decide), hl, hra⟩
  rw [h1 [[1, 2, 3, 4]] rfl (by decide)]
  decide

/-! ### C10: `SetTTL` applies no default substitution -/

/-- C10 (confirmed): `SetTTL d` stores `d` unchanged for every duration `d`,
including `d ≤ 0` — the constructor's substitution of the 5-minute default for
non-positive TTLs happens only in `NewResolver` — so after `SetTTL d` with
`d ≤ 0`, an entry created by a successful resolution at time `now` has
`expiresAt = now + d ≤ now = createdAt`, and every `lookupHost` read of that
host at any time `t ≥ now` treats the entry as already expired: it deletes it
and performs a fresh synchronous resolution in its place. -/
theorem setTTL_no_default_substitution (r : Resolver) (d : Int) :
    SetTTL r d = { r with ttl := d } ∧
    GetTTL (SetTTL r d) = d ∧
    (∀ ttl servers, (NewResolver ttl servers).ttl = if ttl ≤ 0 then defaultTTL else ttl) ∧
    (d ≤ 0 → ∀ env now host ips, env.lookupIP host = .ok ips → ips ≠ [] →
      load (resolveDNS env (SetTTL r d) now host).2.cache host =
        some ⟨ips, now + d, now + Int.tdiv (d * refreshThreshold) 100⟩ ∧
      now + d ≤ now ∧
      (∀ t, now ≤ t → env.parseIP host = none →
        lookupHost env (resolveDNS env (SetTTL r d) now host).2 t host =
          ((resolveDNS env (ClearHost (resolveDNS env (SetTTL r d) now host).2 host) t host).1,
           (resolveDNS env (ClearHost (resolveDNS env (SetTTL r d) now host).2 host) t host).2,
           []))) := by
  refine ⟨rfl, rfl, fun ttl servers => rfl, ?_⟩
  intro hd env now host ips hlk hne
  have hres := resolveDNS_stores env (SetTTL r d) now host ips hlk hne
  refine ⟨?_, by omega, ?_⟩
  · rw [hres]
    dsimp only
    rw [load_store_self]
    rfl
  · intro t hnt hpi
    rw [hres]
    dsimp only
    simp only [lookupHost, hpi, load_store_self, ClearHost]
    rw [if_neg (by dsimp only [SetTTL]; omega)]

theorem setTTL_no_default_substitution_witness :
    SetTTL rEmpty (-100) = { rEmpty with ttl := -100 } ∧
    (NewResolver (-100) []).ttl = defaultTTL ∧
    load rNeg.cache "h" = some { ips := [[1, 2, 3, 4]], expires := -100, stale := -80 } ∧
    (0 : Int) + (-100 : Int) ≤ 0 ∧
    lookupHost envA rNeg 0 "h" =
      ((resolveDNS envA (ClearHost rNeg "h") 0 "h").1,
       (resolveDNS envA (ClearHost rNeg "h") 0 "h").2, []) := by
  obtain ⟨h1, h2, h3, h4⟩ := setTTL_no_default_substitution rEmpty (-100)
  obtain ⟨ha, hb, hc⟩ := h4 (by norm_num) envA 0 "h" [[1, 2, 3, 4]] rfl (by decide)
  refine ⟨h1, ?_, ?_, hb, ?_⟩
  · rw [h3 (-100) []]
    decide
  · rw [show rNeg = (resolveDNS envA (SetTTL rEmpty (-100)) 0 "h").2 from rfl, ha]
    decide
  · exact hc 0 le_rfl rfl

end Name
